import Mathlib

/-!
Shallow embedding of the FinanceFlow dashboard (src/src/App.jsx): the mock
SharePoint data provider (`SharePointService.getListItems` / `getMockData`),
and the derived view-model operations — the percent-change helper
`calculateChange` of `MetricCards` and the `sortedTransactions` memo of
`TransactionTable`.  Finite JavaScript numbers are idealised as exact
rationals; the IEEE special values that the unguarded division in
`calculateChange` can produce are explicit constructors.
-/

namespace FinanceFlow

/-- JavaScript number values as exercised by the dashboard arithmetic:
finite doubles idealised as exact rationals, plus `Infinity`, `-Infinity`
and `NaN`, which the unguarded division in `calculateChange` can produce. -/
inductive JSNum where
  | num : ℚ → JSNum
  | inf : JSNum
  | ninf : JSNum
  | nan : JSNum
deriving DecidableEq

/-- JavaScript subtraction on `JSNum` (ECMA-262 Number::subtract). -/
def jsSub : JSNum → JSNum → JSNum
  | .nan, _ => .nan
  | _, .nan => .nan
  | .num a, .num b => .num (a - b)
  | .inf, .inf => .nan
  | .ninf, .ninf => .nan
  | .inf, _ => .inf
  | .ninf, _ => .ninf
  | .num _, .inf => .ninf
  | .num _, .ninf => .inf

/-- JavaScript division on `JSNum` (ECMA-262 Number::divide): a nonzero
finite value divided by zero gives a signed infinity, and `0 / 0` gives
`NaN`; no exception is ever raised. -/
def jsDiv : JSNum → JSNum → JSNum
  | .nan, _ => .nan
  | _, .nan => .nan
  | .num a, .num b =>
      if b = 0 then (if 0 < a then .inf else if a < 0 then .ninf else .nan)
      else .num (a / b)
  | .inf, .num b => if b < 0 then .ninf else .inf
  | .ninf, .num b => if b < 0 then .inf else .ninf
  | .num _, _ => .num 0
  | _, _ => .nan

/-- JavaScript multiplication on `JSNum` (ECMA-262 Number::multiply). -/
def jsMul : JSNum → JSNum → JSNum
  | .nan, _ => .nan
  | _, .nan => .nan
  | .num a, .num b => .num (a * b)
  | .inf, .num b => if 0 < b then .inf else if b < 0 then .ninf else .nan
  | .num a, .inf => if 0 < a then .inf else if a < 0 then .ninf else .nan
  | .ninf, .num b => if 0 < b then .ninf else if b < 0 then .inf else .nan
  | .num a, .ninf => if 0 < a then .ninf else if a < 0 then .inf else .nan
  | .inf, .inf => .inf
  | .inf, .ninf => .ninf
  | .ninf, .inf => .ninf
  | .ninf, .ninf => .inf

/-- Rounding used by `Number.prototype.toFixed(1)` (ECMA-262): the sign is
split off first, and the integer `n` with `n / 10` closest to the magnitude
is chosen, ties going to the larger `n` — so ties round away from zero. -/
def toFixedRound1 (q : ℚ) : ℚ :=
  if q < 0 then -(((round (-q * 10) : ℤ) : ℚ) / 10)
  else ((round (q * 10) : ℤ) : ℚ) / 10

/-- `Number.prototype.toFixed(1)` on a `JSNum`.  On a finite value it
produces the decimal string for `toFixedRound1`; on `Infinity` or `NaN` the
JS method falls through to `ToString`, producing the strings "Infinity" or
"NaN".  The embedding keeps the numeric reading of the produced string, so
the special values are preserved unchanged. -/
def jsToFixed1 : JSNum → JSNum
  | .num q => .num (toFixedRound1 q)
  | x => x

/-- `calculateChange` from `MetricCards` (src/src/App.jsx:372-374):
`((current - previous) / previous * 100).toFixed(1)`.  The division is
unguarded: nothing tests `previous` for zero. -/
def calculateChange (current previous : JSNum) : JSNum :=
  jsToFixed1 (jsMul (jsDiv (jsSub current previous) previous) (.num 100))

/-- Row shape of the `Financial_Transactions` mock list. -/
structure Transaction where
  Id : ℚ
  Title : String
  Amount : ℚ
  Category : String
  Date : String
  Status : String
deriving DecidableEq

/-- Row shape of the `Budget_Categories` mock list. -/
structure BudgetCategory where
  Id : ℚ
  Title : String
  Allocated : ℚ
  Spent : ℚ
deriving DecidableEq

/-- Row shape of the `Company_Metrics` mock list. -/
structure Metric where
  Id : ℚ
  Title : String
  Value : ℚ
  PreviousValue : ℚ
deriving DecidableEq

/-- A record returned by the mock data provider: one of the three row
shapes of the compiled-in lists. -/
inductive Record where
  | tx : Transaction → Record
  | budget : BudgetCategory → Record
  | metric : Metric → Record
deriving DecidableEq

/-- The compiled-in `Financial_Transactions` rows (src/src/App.jsx:106-111),
in source order. -/
def financialTransactions : List Transaction :=
  [⟨1, "Q2 Revenue", 125000, "Income", "2025-06-01T00:00:00Z", "Completed"⟩,
   ⟨2, "Office Operations", -15000, "Operating Expense", "2025-06-02T00:00:00Z", "Completed"⟩,
   ⟨3, "Marketing Campaign", -8500, "Marketing", "2025-06-03T00:00:00Z", "Pending"⟩,
   ⟨4, "Software Licenses", -3200, "Technology", "2025-06-04T00:00:00Z", "Completed"⟩]

/-- The compiled-in `Budget_Categories` rows (src/src/App.jsx:112-117),
in source order. -/
def budgetCategories : List BudgetCategory :=
  [⟨1, "Marketing", 15000, 12500⟩,
   ⟨2, "Technology", 8000, 6200⟩,
   ⟨3, "Operations", 25000, 18300⟩,
   ⟨4, "Travel", 5000, 1200⟩]

/-- The compiled-in `Company_Metrics` rows (src/src/App.jsx:118-123),
in source order. -/
def companyMetrics : List Metric :=
  [⟨1, "Total Revenue", 125000, 110000⟩,
   ⟨2, "Operating Expenses", 52000, 58000⟩,
   ⟨3, "Net Profit", 73000, 52000⟩,
   ⟨4, "Growth Rate", 18.5, 12.3⟩]

/-- The value produced by the JS expression `mockData[listTitle] || []`
(src/src/App.jsx:126): either a list of mock records (an own property of
the literal, or the `|| []` fallback), or — because a JS property read
walks the prototype chain — the member of `Object.prototype` named by the
key, a function or object that the `|| []` fallback does not replace since
it is truthy.  `inherited s` stands for the `Object.prototype` member named
`s`. -/
inductive LookupResult where
  | records : List Record → LookupResult
  | inherited : String → LookupResult
deriving DecidableEq

/-- The property keys of `Object.prototype`, which an ordinary object
literal inherits: a plain `obj[key]` read finds these when `key` is not an
own property.  Every one of them is a function (or, for `__proto__`, the
prototype object itself), hence truthy. -/
def objectPrototypeKeys : List String :=
  ["constructor", "hasOwnProperty", "isPrototypeOf", "propertyIsEnumerable",
   "toLocaleString", "toString", "valueOf", "__proto__",
   "__defineGetter__", "__defineSetter__", "__lookupGetter__", "__lookupSetter__"]

/-- `SharePointService.getMockData` (src/src/App.jsx:104-127):
`mockData[listTitle] || []` on the object literal keyed by the three list
titles.  An own key returns its compiled-in rows.  Any other key first
consults the prototype chain: a key naming an `Object.prototype` member
yields that inherited (truthy) function or object, bypassing the `|| []`
fallback; only a key found nowhere yields `undefined` and hence `[]`. -/
def getMockData (listTitle : String) : LookupResult :=
  if listTitle = "Financial_Transactions" then .records (financialTransactions.map Record.tx)
  else if listTitle = "Budget_Categories" then .records (budgetCategories.map Record.budget)
  else if listTitle = "Company_Metrics" then .records (companyMetrics.map Record.metric)
  else if listTitle ∈ objectPrototypeKeys then .inherited listTitle
  else .records []

/-- The resolved value of `getListItems`: the SharePoint REST shape
`{ value: ... }`, holding whatever `getMockData` produced. -/
structure SPResponse where
  value : LookupResult
deriving DecidableEq

/-- `SharePointService.getListItems` (src/src/App.jsx:90-98): awaits an
800 ms artificial delay, then resolves with `{ value: getMockData(listTitle) }`.
The promise is modelled as an `Except`: the body contains no `throw` and the
awaited promise always resolves, so the function is total and always returns
`.ok`.  `siteUrl` and `selectFields` are accepted but never used. -/
def getListItems (siteUrl listTitle selectFields : String) : Except String SPResponse :=
  Except.ok ⟨getMockData listTitle⟩

/-- A value stored in a sortable column of the transaction table: every
column holds either JS numbers or JS strings. -/
inductive Value where
  | num : ℚ → Value
  | str : String → Value
deriving DecidableEq

/-- Order embedding of `Value` into the lexicographic sum of rationals and
strings.  Within a constructor this is exactly the JS `<` / `>` used by the
table comparator (numeric order on numbers; Lean's lexicographic string
order, which on the BMP strings of this repository agrees with JS code-unit
order).  Across constructors the JS comparison never happens — every column
is homogeneously typed — so the cross-constructor order is an arbitrary
total completion. -/
def Value.toSumLex : Value → ℚ ⊕ₗ String
  | .num q => toLex (Sum.inl q)
  | .str s => toLex (Sum.inr s)

theorem Value.toSumLex_injective : Function.Injective Value.toSumLex := by
  intro v w h
  cases v <;> cases w <;> simp [Value.toSumLex] at h <;> simp [h]

instance : LinearOrder Value := LinearOrder.lift' Value.toSumLex Value.toSumLex_injective

/-- The sortable columns of the transaction table: the `orderBy` state of
`TransactionTable` ranges over the column field names. -/
inductive TxField where
  | Id
  | Title
  | Amount
  | Category
  | Date
  | Status
deriving DecidableEq

/-- The JS property access `a[orderBy]` on a transaction row. -/
def fieldVal : TxField → Transaction → Value
  | .Id, t => .num t.Id
  | .Title, t => .str t.Title
  | .Amount, t => .num t.Amount
  | .Category, t => .str t.Category
  | .Date, t => .str t.Date
  | .Status, t => .str t.Status

/-- The `order` state of `TransactionTable`: 'asc' or 'desc'. -/
inductive SortDir where
  | asc
  | desc
deriving DecidableEq

/-- The ordering realised by the comparator of `sortedTransactions`
(src/src/App.jsx:480-485).  The comparator never returns 0: for 'asc' it is
`a[orderBy] < b[orderBy] ? -1 : 1`, so it places `a` before `b` exactly when
`a[orderBy] < b[orderBy]`; an element keeps its place before a later one
exactly when the comparator does not strictly order the later one first,
i.e. when `¬ (b[orderBy] < a[orderBy])`, which is `a[orderBy] ≤ b[orderBy]`.
For 'desc' the comparator is `a[orderBy] > b[orderBy] ? -1 : 1`, giving
`b[orderBy] ≤ a[orderBy]`. -/
def sortRel (orderBy : TxField) : SortDir → Transaction → Transaction → Prop
  | .asc, a, b => fieldVal orderBy a ≤ fieldVal orderBy b
  | .desc, a, b => fieldVal orderBy b ≤ fieldVal orderBy a

instance (orderBy : TxField) : (d : SortDir) → DecidableRel (sortRel orderBy d)
  | .asc, a, b => inferInstanceAs (Decidable (fieldVal orderBy a ≤ fieldVal orderBy b))
  | .desc, a, b => inferInstanceAs (Decidable (fieldVal orderBy b ≤ fieldVal orderBy a))

instance sortRel_total (orderBy : TxField) :
    (d : SortDir) → IsTotal Transaction (sortRel orderBy d)
  | .asc => ⟨fun a b => le_total (fieldVal orderBy a) (fieldVal orderBy b)⟩
  | .desc => ⟨fun a b => le_total (fieldVal orderBy b) (fieldVal orderBy a)⟩

instance sortRel_trans (orderBy : TxField) :
    (d : SortDir) → IsTrans Transaction (sortRel orderBy d)
  | .asc => ⟨fun _ _ _ h1 h2 => le_trans h1 h2⟩
  | .desc => ⟨fun _ _ _ h1 h2 => le_trans h2 h1⟩

/-- The `useMemo` value `sortedTransactions` of `TransactionTable`
(src/src/App.jsx:479-486): `[...transactions].sort(comparator)`.  JS
`Array.prototype.sort` is stable (ES2019) and, because this comparator
returns a negative value exactly on a strict key comparison, the engines'
sorts (V8 and SpiderMonkey TimSort, whose insertions move an element ahead
of another only on a strictly negative comparison) keep equal-keyed
elements in input order.  The observable result is therefore the stable
sort under `sortRel`, modelled with the stable `List.insertionSort`. -/
def sortedTransactions (transactions : List Transaction) (orderBy : TxField)
    (order : SortDir) : List Transaction :=
  List.insertionSort (sortRel orderBy order) transactions

/-- A heap of JS transaction arrays; an array reference is an index into
the heap.  Used to state that the sort reads its input array only to copy
it and mutates only the fresh copy. -/
structure Store where
  arrays : List (List Transaction)
deriving DecidableEq

/-- Dereference an array in the heap. -/
def readArr (st : Store) (r : ℕ) : List Transaction :=
  st.arrays.getD r []

/-- Allocate a fresh array, returning the new heap and the fresh reference. -/
def allocArr (st : Store) (contents : List Transaction) : Store × ℕ :=
  (⟨st.arrays ++ [contents]⟩, st.arrays.length)

/-- Overwrite the contents of an existing array in place. -/
def writeArr (st : Store) (r : ℕ) (contents : List Transaction) : Store :=
  ⟨st.arrays.set r contents⟩

/-- The `useMemo` body of `sortedTransactions` with the array mutation made
explicit: `[...transactions]` allocates a fresh array holding the same
elements, `.sort(...)` rearranges that fresh array in place, and the fresh
array's reference is the memo's value.  The input array `txsRef` is only
read. -/
def sortedTransactionsProgram (st : Store) (txsRef : ℕ) (orderBy : TxField)
    (order : SortDir) : Store × ℕ :=
  let contents := readArr st txsRef
  let (st1, newRef) := allocArr st contents
  let st2 := writeArr st1 newRef (sortedTransactions contents orderBy order)
  (st2, newRef)

/-- Claim C1: evaluation of `calculateChange` at inputs with previous = 0.
The unguarded division makes the operation return the invalid numeric
results `Infinity`, `-Infinity` or `NaN` (which `toFixed(1)` passes through
as the strings "Infinity"/"NaN") instead of any sentinel value; it does not
throw, but no documented sentinel exists anywhere on this path. -/
theorem calculateChange_zero_previous_eval :
    calculateChange (.num 5) (.num 0) = JSNum.inf ∧
    calculateChange (.num (-5)) (.num 0) = JSNum.ninf ∧
    calculateChange (.num 0) (.num 0) = JSNum.nan := by
  refine ⟨?_, ?_, ?_⟩ <;> norm_num [calculateChange, jsSub, jsDiv, jsMul, jsToFixed1]

/-- Claim C2: for numeric inputs with previous ≠ 0, `calculateChange`
returns `(current - previous) / previous * 100` rounded to one decimal
place (with the rounding of `toFixed(1)`). -/
theorem calculateChange_formula (current previous : ℚ) (h : previous ≠ 0) :
    calculateChange (.num current) (.num previous)
      = .num (toFixedRound1 ((current - previous) / previous * 100)) := by
  simp [calculateChange, jsSub, jsDiv, jsMul, jsToFixed1, h]

theorem calculateChange_formula_witness :
    (110000 : ℚ) ≠ 0 ∧
    calculateChange (.num 125000) (.num 110000)
      = .num (toFixedRound1 ((125000 - 110000) / 110000 * 100)) :=
  ⟨by norm_num, calculateChange_formula 125000 110000 (by norm_num)⟩

/-- Claim C3: the two concrete percent-change values of the spec:
`calculateChange(125000, 110000)` is 13.6 and `calculateChange(52000, 58000)`
is -10.3. -/
theorem calculateChange_sample_values :
    calculateChange (.num 125000) (.num 110000) = .num 13.6 ∧
    calculateChange (.num 52000) (.num 58000) = .num (-10.3) := by
  constructor <;>
    norm_num [calculateChange, jsSub, jsDiv, jsMul, jsToFixed1, toFixedRound1, round_eq]

/-- Claim C4: sorting is idempotent — applying `sortedTransactions` to a
sequence already sorted by the chosen field and direction returns the same
sequence, for every field and direction. -/
theorem sortedTransactions_idempotent (transactions : List Transaction)
    (orderBy : TxField) (order : SortDir)
    (h : List.Sorted (sortRel orderBy order) transactions) :
    sortedTransactions transactions orderBy order = transactions :=
  h.insertionSort_eq

theorem sortedTransactions_idempotent_witness :
    List.Sorted (sortRel TxField.Amount SortDir.asc)
      (sortedTransactions financialTransactions TxField.Amount SortDir.asc) ∧
    sortedTransactions (sortedTransactions financialTransactions TxField.Amount SortDir.asc)
        TxField.Amount SortDir.asc
      = sortedTransactions financialTransactions TxField.Amount SortDir.asc :=
  ⟨by decide, sortedTransactions_idempotent _ _ _ (by decide)⟩

/-- Claim C5: when no two records agree on the chosen field, sorting
ascending yields exactly the reverse of sorting descending. -/
theorem sortedTransactions_asc_reverse_desc (transactions : List Transaction)
    (orderBy : TxField)
    (hnd : transactions.Pairwise fun a b => fieldVal orderBy a ≠ fieldVal orderBy b) :
    sortedTransactions transactions orderBy SortDir.asc
      = (sortedTransactions transactions orderBy SortDir.desc).reverse := by
  haveI : IsAntisymm Transaction (fun a b => fieldVal orderBy a < fieldVal orderBy b) :=
    ⟨fun _ _ h1 h2 => absurd h2 h1.asymm⟩
  apply List.eq_of_perm_of_sorted
    (r := fun a b => fieldVal orderBy a < fieldVal orderBy b)
  · exact (List.perm_insertionSort _ _).trans
      ((List.reverse_perm _).trans (List.perm_insertionSort _ _)).symm
  · have hs : List.Sorted (sortRel orderBy SortDir.asc)
        (sortedTransactions transactions orderBy SortDir.asc) :=
      List.sorted_insertionSort _ _
    have hne : (sortedTransactions transactions orderBy SortDir.asc).Pairwise
        (fun a b => fieldVal orderBy a ≠ fieldVal orderBy b) :=
      ((List.perm_insertionSort _ _).pairwise_iff (fun {_ _} h => h.symm)).mpr hnd
    exact (List.Pairwise.and hs hne).imp fun h => lt_of_le_of_ne h.1 h.2
  · have hs : List.Sorted (sortRel orderBy SortDir.desc)
        (sortedTransactions transactions orderBy SortDir.desc) :=
      List.sorted_insertionSort _ _
    have hrev : (sortedTransactions transactions orderBy SortDir.desc).reverse.Pairwise
        (fun a b => fieldVal orderBy a ≤ fieldVal orderBy b) :=
      List.pairwise_reverse.mpr hs
    have hne : (sortedTransactions transactions orderBy SortDir.desc).reverse.Pairwise
        (fun a b => fieldVal orderBy a ≠ fieldVal orderBy b) :=
      (((List.reverse_perm _).trans (List.perm_insertionSort _ _)).pairwise_iff (fun {_ _} h => h.symm)).mpr hnd
    exact (List.Pairwise.and hrev hne).imp fun h => lt_of_le_of_ne h.1 h.2

theorem sortedTransactions_asc_reverse_desc_witness :
    (financialTransactions.Pairwise fun a b =>
      fieldVal TxField.Amount a ≠ fieldVal TxField.Amount b) ∧
    sortedTransactions financialTransactions TxField.Amount SortDir.asc
      = (sortedTransactions financialTransactions TxField.Amount SortDir.desc).reverse :=
  ⟨by decide, sortedTransactions_asc_reverse_desc _ _ (by decide)⟩

/-- Claim C6: sorting the four compiled-in sample transactions by Amount
ascending yields the rows in amount order -15000, -8500, -3200, 125000. -/
theorem sortedTransactions_sample_amount_asc :
    sortedTransactions financialTransactions TxField.Amount SortDir.asc =
      [⟨2, "Office Operations", -15000, "Operating Expense", "2025-06-02T00:00:00Z", "Completed"⟩,
       ⟨3, "Marketing Campaign", -8500, "Marketing", "2025-06-03T00:00:00Z", "Pending"⟩,
       ⟨4, "Software Licenses", -3200, "Technology", "2025-06-04T00:00:00Z", "Completed"⟩,
       ⟨1, "Q2 Revenue", 125000, "Income", "2025-06-01T00:00:00Z", "Completed"⟩] ∧
    (sortedTransactions financialTransactions TxField.Amount SortDir.asc).map
        Transaction.Amount
      = [-15000, -8500, -3200, 125000] := by
  constructor <;> decide

/-- Claim C7: for each of the three recognized dataset names, the fetch
operation resolves with exactly the compiled-in sequence for that name,
unaltered and in the compiled-in order, whatever the site URL and field
selection arguments are. -/
theorem getListItems_recognized (siteUrl selectFields : String) :
    getListItems siteUrl "Financial_Transactions" selectFields
      = Except.ok ⟨.records (financialTransactions.map Record.tx)⟩ ∧
    getListItems siteUrl "Budget_Categories" selectFields
      = Except.ok ⟨.records (budgetCategories.map Record.budget)⟩ ∧
    getListItems siteUrl "Company_Metrics" selectFields
      = Except.ok ⟨.records (companyMetrics.map Record.metric)⟩ :=
  ⟨rfl, rfl, rfl⟩

/-- Claim C8: evaluation of the fetch at the unrecognized dataset name
"constructor".  The name is none of the three recognized titles, yet the
property read finds the inherited `Object.prototype.constructor` — a
truthy function — so `|| []` never fires and the result is not the empty
sequence (nor any sequence of records); likewise for "toString" and
"__proto__". -/
theorem getMockData_prototype_chain_leak :
    ("constructor" : String) ≠ "Financial_Transactions" ∧
    ("constructor" : String) ≠ "Budget_Categories" ∧
    ("constructor" : String) ≠ "Company_Metrics" ∧
    getMockData "constructor" = LookupResult.inherited "constructor" ∧
    getMockData "toString" = LookupResult.inherited "toString" ∧
    getMockData "__proto__" = LookupResult.inherited "__proto__" ∧
    getListItems "" "constructor" "*" ≠ Except.ok ⟨LookupResult.records []⟩ := by
  refine ⟨by decide, by decide, by decide, rfl, rfl, rfl, fun h => ?_⟩
  have hc : getListItems "" "constructor" "*"
      = Except.ok ⟨LookupResult.inherited "constructor"⟩ := rfl
  rw [hc] at h
  simp at h

/-- Claim C9: the fetch indeed never raises an error — for every dataset
name it resolves with `.ok` — but it does not always resolve with a
sequence of records: at the name "constructor" it resolves with the
inherited `Object.prototype.constructor` function instead. -/
theorem getListItems_resolves_but_leaks :
    (∀ siteUrl listTitle selectFields : String,
      ∃ response, getListItems siteUrl listTitle selectFields = Except.ok response) ∧
    getListItems "" "constructor" "*"
      = Except.ok ⟨LookupResult.inherited "constructor"⟩ ∧
    (∀ l : List Record,
      getListItems "" "constructor" "*" ≠ Except.ok ⟨LookupResult.records l⟩) := by
  refine ⟨fun siteUrl listTitle selectFields => ⟨⟨getMockData listTitle⟩, rfl⟩, rfl,
    fun l h => ?_⟩
  have hc : getListItems "" "constructor" "*"
      = Except.ok ⟨LookupResult.inherited "constructor"⟩ := rfl
  rw [hc] at h
  simp at h

/-- Claim C10: the sort does not modify its input array.  It allocates a
fresh array (its reference is distinct from the input's), the input array
reads the same afterwards, and the fresh array holds the sorted copy. -/
theorem sortedTransactionsProgram_preserves_input (st : Store) (txsRef : ℕ)
    (orderBy : TxField) (order : SortDir) (h : txsRef < st.arrays.length) :
    (sortedTransactionsProgram st txsRef orderBy order).2 ≠ txsRef ∧
    readArr (sortedTransactionsProgram st txsRef orderBy order).1 txsRef
      = readArr st txsRef ∧
    readArr (sortedTransactionsProgram st txsRef orderBy order).1
        (sortedTransactionsProgram st txsRef orderBy order).2
      = sortedTransactions (readArr st txsRef) orderBy order := by
  refine ⟨h.ne', ?_, ?_⟩
  · simp only [sortedTransactionsProgram, allocArr, writeArr, readArr]
    rw [List.getD_eq_getElem?_getD, List.getElem?_set_ne h.ne',
      List.getElem?_append_left h, List.getD_eq_getElem?_getD]
  · simp only [sortedTransactionsProgram, allocArr, writeArr, readArr]
    rw [List.getD_eq_getElem?_getD, List.getElem?_set_self (by simp)]
    rfl

theorem sortedTransactionsProgram_preserves_input_witness :
    0 < (Store.mk [financialTransactions]).arrays.length ∧
    ((sortedTransactionsProgram ⟨[financialTransactions]⟩ 0 TxField.Amount SortDir.asc).2 ≠ 0 ∧
     readArr (sortedTransactionsProgram ⟨[financialTransactions]⟩ 0 TxField.Amount SortDir.asc).1 0
       = readArr ⟨[financialTransactions]⟩ 0 ∧
     readArr (sortedTransactionsProgram ⟨[financialTransactions]⟩ 0 TxField.Amount SortDir.asc).1
         (sortedTransactionsProgram ⟨[financialTransactions]⟩ 0 TxField.Amount SortDir.asc).2
       = sortedTransactions (readArr ⟨[financialTransactions]⟩ 0) TxField.Amount SortDir.asc) :=
  ⟨by decide,
    sortedTransactionsProgram_preserves_input ⟨[financialTransactions]⟩ 0
      TxField.Amount SortDir.asc (by decide)⟩

end FinanceFlow
